import Mathlib

/-!
Shallow embedding of the Simple Fragmentation Protocol (SFP) from
src/src/csp_sfp.c and src/include/csp/csp_sfp.h of libcsp.

Modelling conventions:
- Machine integers are Nat, with explicit reduction modulo 2^16 or 2^32
  exactly where the C code truncates (the local `uint16_t size` in
  csp_sfp_send, the uint32 parameters, the uint32 `data_offset` addition).
- A CSP packet is its CSP_FFRAG relevant flag bits plus the list of the
  bytes data[0 .. length-1]; the length field is the list length.
- The user supplied read and write callbacks are pure functions; the
  receive side callback threads an explicit state of type sigma so that a
  concrete sink can record what is written to it.
- Error codes are Int values following the csp_error.h numbering
  (csp_error.h itself is not under src; only distinctness of the codes is
  used by any theorem below).
-/

/-- Capacity in bytes of the data array of a csp_packet_t. Modelled from the
spec: csp_types.h and csp_buffer.h are not under src; the spec calls this the
maximum message payload, and the libcsp default is 256. All theorems below
use it only through CSP_BUFFER_SIZE - SFP_HEADER_SIZE. -/
def CSP_BUFFER_SIZE : Nat := 256

/-- Size in bytes of sfp_header_t, two packed uint32 fields. -/
def SFP_HEADER_SIZE : Nat := 8

/-- Fragment flag bit carried in the packet id flags. Modelled from the
spec: csp_types.h is not under src; the value is the libcsp CSP_FFRAG bit.
Only the fact that it is a fixed nonzero bit mask is used. -/
def CSP_FFRAG : Nat := 16

def CSP_ERR_NONE : Int := 0

def CSP_ERR_NOMEM : Int := -1

def CSP_ERR_INVAL : Int := -2

def CSP_ERR_TIMEDOUT : Int := -3

def CSP_ERR_SFP : Int := -103

/-- Modulus of the C type uint16_t. -/
def UINT16_MOD : Nat := 65536

/-- Modulus of the C type uint32_t. -/
def UINT32_MOD : Nat := 4294967296

/-- Big endian byte serialization of a uint32 value (htobe32 written into
four consecutive bytes). -/
def be32enc (x : Nat) : List Nat :=
  [x / 16777216 % 256, x / 65536 % 256, x / 256 % 256, x % 256]

/-- Big endian byte deserialization (be32toh of four consecutive bytes).
Each byte is reduced modulo 256 because the C array holds uint8 values. -/
def be32dec (l : List Nat) : Nat :=
  l.foldl (fun a b => a * 256 + b % 256) 0

/-- A CSP packet as seen by the SFP layer: the id flags and the logical
payload bytes data[0 .. length-1]. -/
structure Packet where
  flags : Nat
  data : List Nat
deriving DecidableEq

/-- The decoded sfp_header_t trailer: offset first, then totalsize. -/
structure SfpHeader where
  offset : Nat
  totalsize : Nat
deriving DecidableEq

/-- csp_sfp_header_add followed by the two htobe32 field stores in
csp_sfp_send: append the 8 trailer bytes (offset field first, then
totalsize) after the payload and grow the length by 8. -/
def csp_sfp_header_add (p : Packet) (offset totalsize : Nat) : Packet :=
  { p with data := p.data ++ be32enc offset ++ be32enc totalsize }

/-- Value of the offset field of the trailer occupying the last 8 payload
bytes, decoded big endian (bytes length-8 .. length-5). -/
def decodedOffset (p : Packet) : Nat :=
  be32dec ((p.data.drop (p.data.length - SFP_HEADER_SIZE)).take 4)

/-- Value of the totalsize field of the trailer occupying the last 8
payload bytes, decoded big endian (bytes length-4 .. length-1). -/
def decodedTotal (p : Packet) : Nat :=
  be32dec ((p.data.drop (p.data.length - SFP_HEADER_SIZE)).drop 4)

/-- csp_sfp_header_remove: NULL when the fragment flag is absent or the
payload is shorter than the trailer; otherwise strip the last 8 bytes from
the logical length, decode both fields big endian, and return NULL (with
the length already shrunk, as in the C code) when offset exceeds totalsize.
Returns the decoded header together with the packet after the call. -/
def csp_sfp_header_remove (p : Packet) : Option SfpHeader × Packet :=
  if p.flags &&& CSP_FFRAG = 0 then (none, p)
  else if p.data.length < SFP_HEADER_SIZE then (none, p)
  else
    let p2 : Packet := { p with data := p.data.take (p.data.length - SFP_HEADER_SIZE) }
    if decodedTotal p < decodedOffset p then (none, p2)
    else (some ⟨decodedOffset p, decodedTotal p⟩, p2)

/-- Environment of one csp_sfp_send call: whether the csp_buffer_get
allocation at a given count succeeds, the value returned by the user read
callback for a given offset and size, and the bytes it stores into the
packet buffer. All are pure functions of the observable iteration state,
matching the C code in which the loop state is exactly count. -/
structure SendEnv where
  alloc : Nat → Bool
  readRet : Nat → Nat → Nat
  readData : Nat → Nat → List Nat

/-- Step indexed semantics of the while loop of csp_sfp_send. One fuel unit
is one loop iteration; none means the loop has not returned within fuel
iterations. Mirrors the C body: allocate, compute
size = min of mtu and the uint16 truncation of totalsize - count, call the
user read callback (any mismatch returns CSP_ERR_SFP), or the fragment
flag into the connection flags, append the trailer (offset = count,
totalsize), hand the packet to csp_send, and advance count by size.
Returns the packets handed to csp_send, the final connection flags and the
return code. -/
def sfpSendSteps (env : SendEnv) (totalsize mtu flags count fuel : Nat) :
    Option (List Packet × Nat × Int) :=
  match fuel with
  | 0 => none
  | fuel + 1 =>
    if count < totalsize then
      if env.alloc count then
        let size0 := (totalsize - count) % UINT16_MOD
        let size := if mtu < size0 then mtu % UINT16_MOD else size0
        if env.readRet count size = size then
          let flags2 := flags ||| CSP_FFRAG
          let payload := (env.readData count size).takeD size 0
          let pkt := csp_sfp_header_add ⟨flags2, payload⟩ count totalsize
          match sfpSendSteps env totalsize mtu flags2 (count + size) fuel with
          | none => none
          | some (ps, fl, code) => some (pkt :: ps, fl, code)
        else some ([], flags, CSP_ERR_SFP)
      else some ([], flags, CSP_ERR_NOMEM)
    else some ([], flags, CSP_ERR_NONE)

/-- csp_sfp_send. The uint32 parameters are reduced modulo 2^32, the mtu
guard is checked once up front, and the loop is run with fuel
totalsize + 1. The fuel is sufficient for every terminating run: every
iteration that does not return advances count by size, and an iteration
with size = 0 leaves the loop state (count alone) unchanged, so purity
makes every later iteration identical and the C loop never returns. A
result of none therefore models exactly the runs on which the C while loop
never terminates. -/
def csp_sfp_send (env : SendEnv) (flags totalsize mtu : Nat) :
    Option (List Packet × Nat × Int) :=
  let t := totalsize % UINT32_MOD
  let m := mtu % UINT32_MOD
  if m = 0 ∨ CSP_BUFFER_SIZE - SFP_HEADER_SIZE < m then some ([], flags, CSP_ERR_INVAL)
  else sfpSendSteps env t m flags 0 (t + 1)

/-- The user write callback of csp_sfp_recv_fp with an explicit state:
write s buffer offset size totalsize returns the reported byte count and
the next state. -/
structure WriteCap (σ : Type) where
  write : σ → List Nat → Nat → Nat → Nat → Nat × σ

/-- The do while loop of csp_sfp_recv_fp, processing the in hand packet
and then reading the rest of the channel in order. Mirrors the C body:
trailer removal (NULL gives CSP_ERR_SFP), the consistency check on offset
and on the stripped payload length, fixing datasize from the first trailer
(zero totalsize gives CSP_ERR_SFP), the user write callback call with the
payload, the running data offset and the trailer totalsize of this
fragment (a mismatched return gives CSP_ERR_SFP), the uint32 advance of
data offset, the completion test, and otherwise the next csp_read, an
empty channel giving CSP_ERR_TIMEDOUT. Returns the code, the value stored
in the datasize out parameter, and the final sink state. -/
def csp_sfp_recv_loop {σ : Type} (wr : WriteCap σ) (packet : Packet)
    (chan : List Packet) (datasize data_offset : Nat) (s : σ) : Int × Nat × σ :=
  match csp_sfp_header_remove packet with
  | (none, _) => (CSP_ERR_SFP, 0, s)
  | (some hdr, p) =>
    if hdr.offset ≠ data_offset ∨ p.data.length = 0 ∨
        CSP_BUFFER_SIZE - SFP_HEADER_SIZE < p.data.length then
      (CSP_ERR_SFP, 0, s)
    else if datasize = 0 ∧ hdr.totalsize = 0 then
      (CSP_ERR_SFP, 0, s)
    else
      let ds := if datasize = 0 then hdr.totalsize else datasize
      let wres := wr.write s p.data data_offset p.data.length hdr.totalsize
      if p.data.length ≠ wres.1 then (CSP_ERR_SFP, 0, wres.2)
      else
        let off2 := (data_offset + p.data.length) % UINT32_MOD
        if ds ≤ off2 then (CSP_ERR_NONE, ds, wres.2)
        else if p.data.length = 0 then (CSP_ERR_SFP, 0, wres.2)
        else
          match chan with
          | [] => (CSP_ERR_TIMEDOUT, 0, wres.2)
          | q :: rest => csp_sfp_recv_loop wr q rest ds off2 wres.2

/-- csp_sfp_recv_fp. The datasize out parameter is 0 on entry and is only
assigned on the success path, so the second component of the result is the
value the caller observes in it. The first packet comes from the
first_packet argument when present, otherwise from the channel, an empty
channel giving CSP_ERR_TIMEDOUT. -/
def csp_sfp_recv_fp {σ : Type} (wr : WriteCap σ) (chan : List Packet)
    (first_packet : Option Packet) (s : σ) : Int × Nat × σ :=
  match first_packet with
  | some p => csp_sfp_recv_loop wr p chan 0 0 s
  | none =>
    match chan with
    | [] => (CSP_ERR_TIMEDOUT, 0, s)
    | p :: rest => csp_sfp_recv_loop wr p rest 0 0 s

/-- Send environment in which every allocation succeeds and the read
callback always reports the requested size, supplying the constant byte 1. -/
def envPerfect : SendEnv :=
  ⟨fun _ => true, fun _ size => size, fun _ size => List.replicate size 1⟩

/-- Send environment reading from a concrete source list, always reporting
the requested size. -/
def envOfList (src : List Nat) : SendEnv :=
  ⟨fun _ => true, fun _ size => size,
   fun off size => (List.range size).map (fun i => src.getD (off + i) 0)⟩

/-- Write capability that accepts every write and keeps no state. -/
def unitCap : WriteCap Unit :=
  ⟨fun s _ _ size _ => (size, s)⟩

/-- Write capability whose reported count always differs from the payload
length. -/
def shortCap : WriteCap Unit :=
  ⟨fun s _ _ size _ => (size + 1, s)⟩

/-- Write capability recording the offset, size and totalsize arguments of
every call it receives, accepting every write. -/
def logCap : WriteCap (List (Nat × Nat × Nat)) :=
  ⟨fun s _ off size tot => (size, s ++ [(off, size, tot)])⟩

/-- Write capability appending every payload to a byte sink, accepting
every write. -/
def sinkCap : WriteCap (List Nat) :=
  ⟨fun s buf _ _ _ => (buf.length, s ++ buf)⟩

/-- A fragment declaring offset 0 of a transfer of total size 10, payload
bytes 1 2 3 4. -/
def fragA : Packet := csp_sfp_header_add ⟨CSP_FFRAG, [1, 2, 3, 4]⟩ 0 10

/-- A fragment declaring offset 4 but total size 999, payload bytes
5 6 7 8, disagreeing with the total size 10 declared by fragA. -/
def fragB : Packet := csp_sfp_header_add ⟨CSP_FFRAG, [5, 6, 7, 8]⟩ 4 999

/-- A fragment whose trailer offset 5 does not match a receive loop that
has delivered no bytes yet. -/
def fragSkip : Packet := csp_sfp_header_add ⟨CSP_FFRAG, [7]⟩ 5 9

/-- A single fragment carrying a complete transfer of 3 bytes. -/
def fragFull : Packet := csp_sfp_header_add ⟨CSP_FFRAG, [1, 2, 3]⟩ 0 3

/-- The packet csp_sfp_recv_fp processes first: the first_packet argument
when present, otherwise the head of the connection channel. -/
def firstPacket (chan : List Packet) (fp : Option Packet) : Option Packet :=
  match fp with
  | some p => some p
  | none => chan.head?

/-- The three fragments csp_sfp_send hands to the channel for envPerfect,
totalsize 10 and mtu 4. -/
def sentPerfect10 : List Packet :=
  [csp_sfp_header_add ⟨CSP_FFRAG, List.replicate 4 1⟩ 0 10,
   csp_sfp_header_add ⟨CSP_FFRAG, List.replicate 4 1⟩ 4 10,
   csp_sfp_header_add ⟨CSP_FFRAG, List.replicate 2 1⟩ 8 10]

/-- Helper: a value with CSP_FFRAG merged in has a nonzero CSP_FFRAG mask. -/
theorem lor_ffrag_land_ne_zero (a : Nat) : (a ||| CSP_FFRAG) &&& CSP_FFRAG ≠ 0 := by
  intro h
  have h4 : ((a ||| CSP_FFRAG) &&& CSP_FFRAG).testBit 4 = true := by
    rw [Nat.testBit_land, Nat.testBit_lor]
    have : Nat.testBit CSP_FFRAG 4 = true := by decide
    simp [this]
  rw [h] at h4
  simp [Nat.zero_testBit] at h4

/-- Helper: merging CSP_FFRAG twice is the same as merging it once. -/
theorem lor_ffrag_idem (a : Nat) : (a ||| CSP_FFRAG) ||| CSP_FFRAG = a ||| CSP_FFRAG := by
  apply Nat.eq_of_testBit_eq
  intro i
  simp [Nat.testBit_lor, Bool.or_assoc]

/-- Helper: a header successfully decoded from a packet has the big endian
values of the last 8 payload bytes. -/
theorem header_remove_some (p : Packet) (hdr : SfpHeader) (q : Packet)
    (h : csp_sfp_header_remove p = (some hdr, q)) :
    hdr.offset = decodedOffset p ∧ hdr.totalsize = decodedTotal p ∧
      q.data.length + SFP_HEADER_SIZE = p.data.length ∧ q.flags = p.flags := by
  unfold csp_sfp_header_remove at h
  split_ifs at h with h1 h2 h3
  · cases h
  · cases h
  · cases h
  · injection h with h4 h5
    injection h4 with h6
    subst h6
    subst h5
    refine ⟨rfl, rfl, ?_, rfl⟩
    simp only [List.length_take]
    omega

/-- C4: the trailer decode returns none exactly when the fragment flag is
absent, the payload region is shorter than 8 bytes, or the big endian
decoded offset exceeds the decoded total size; otherwise it returns the
trailer whose fields are read big endian from the last 8 payload bytes. -/
theorem csp_sfp_header_remove_spec (p : Packet) :
    ((csp_sfp_header_remove p).1 = none ↔
      (p.flags &&& CSP_FFRAG = 0 ∨ p.data.length < SFP_HEADER_SIZE ∨
        decodedTotal p < decodedOffset p)) ∧
    ((csp_sfp_header_remove p).1 = none ∨
      (csp_sfp_header_remove p).1 = some ⟨decodedOffset p, decodedTotal p⟩) := by
  unfold csp_sfp_header_remove
  split_ifs with h1 h2 h3 <;> simp_all

/-- C8 counterexample: on a fragment flagged packet whose 8 byte trailer
decodes to offset 1 and total size 0 the decode returns none, yet the
payload length after the call is 0, not the original 8. -/
theorem header_remove_shrinks_on_none :
    (csp_sfp_header_remove ⟨CSP_FFRAG, [0, 0, 0, 1, 0, 0, 0, 0]⟩).1 = none ∧
    (csp_sfp_header_remove ⟨CSP_FFRAG, [0, 0, 0, 1, 0, 0, 0, 0]⟩).2.data.length ≠ 8 := by
  decide

/-- C8 amended: the decode leaves the message untouched when it returns
none because the fragment flag is absent or the payload region is shorter
than 8 bytes; whenever the flag is present and the payload region holds at
least 8 bytes, including the case in which it returns none because offset
exceeds total size, the payload length is shrunk by exactly 8. -/
theorem csp_sfp_header_remove_length (p : Packet) :
    ((p.flags &&& CSP_FFRAG = 0 ∨ p.data.length < SFP_HEADER_SIZE) →
      (csp_sfp_header_remove p).2 = p) ∧
    (p.flags &&& CSP_FFRAG ≠ 0 → SFP_HEADER_SIZE ≤ p.data.length →
      (csp_sfp_header_remove p).2.data.length + SFP_HEADER_SIZE = p.data.length) := by
  unfold csp_sfp_header_remove
  split_ifs with h1 h2 h3
  · exact ⟨fun _ => rfl, fun h _ => absurd h1 h⟩
  · exact ⟨fun _ => rfl, fun _ h5 => absurd h2 (by omega)⟩
  · refine ⟨fun h => ?_, fun _ _ => ?_⟩
    · rcases h with h | h
      · exact absurd h h1
      · exact absurd h h2
    · simp only [List.length_take]
      omega
  · refine ⟨fun h => ?_, fun _ _ => ?_⟩
    · rcases h with h | h
      · exact absurd h h1
      · exact absurd h h2
    · simp only [List.length_take]
      omega

/-- C6: once the trailer of a fragment decodes successfully, the fragment
is rejected with CSP_ERR_SFP when its trailer offset differs from the
running data offset, or its stripped payload length is zero, or that
length exceeds the buffer capacity minus the trailer size; the zero length
case is rejected before the completion test, so also for a would be final
fragment. -/
theorem csp_sfp_recv_loop_rejects {σ : Type} (wr : WriteCap σ) (pkt : Packet)
    (chan : List Packet) (ds off : Nat) (s : σ) (hdr : SfpHeader) (p : Packet)
    (hrem : csp_sfp_header_remove pkt = (some hdr, p))
    (hbad : hdr.offset ≠ off ∨ p.data.length = 0 ∨
      CSP_BUFFER_SIZE - SFP_HEADER_SIZE < p.data.length) :
    csp_sfp_recv_loop wr pkt chan ds off s = (CSP_ERR_SFP, 0, s) := by
  rw [csp_sfp_recv_loop.eq_def, hrem]
  simp only []
  rw [if_pos hbad]

/-- C6 witness input: fragSkip declares offset 5 while no byte has been
delivered yet, so the receive loop rejects it. -/
theorem csp_sfp_recv_loop_rejects_witness :
    csp_sfp_recv_loop unitCap fragSkip [] 0 0 () = (CSP_ERR_SFP, 0, ()) :=
  csp_sfp_recv_loop_rejects unitCap fragSkip [] 0 0 () ⟨5, 9⟩ ⟨CSP_FFRAG, [7]⟩
    (by decide) (by decide)

/-- C7 amended: for an accepted fragment the write callback is invoked with
the stripped payload, the running data offset as storage offset, the
payload length, and the total size decoded from the trailer of this very
fragment (not the running expected total, which the C code does not pass);
when the reported count differs from the payload length the transfer fails
with CSP_ERR_SFP in the state produced by exactly that call. -/
theorem csp_sfp_recv_loop_write_short {σ : Type} (wr : WriteCap σ) (pkt : Packet)
    (chan : List Packet) (ds off : Nat) (s : σ) (hdr : SfpHeader) (p : Packet)
    (hrem : csp_sfp_header_remove pkt = (some hdr, p))
    (hoff : hdr.offset = off)
    (hlen : p.data.length ≠ 0)
    (hcap : p.data.length ≤ CSP_BUFFER_SIZE - SFP_HEADER_SIZE)
    (hz : ¬ (ds = 0 ∧ hdr.totalsize = 0))
    (hw : (wr.write s p.data off p.data.length hdr.totalsize).1 ≠ p.data.length) :
    csp_sfp_recv_loop wr pkt chan ds off s =
      (CSP_ERR_SFP, 0, (wr.write s p.data off p.data.length hdr.totalsize).2) := by
  rw [csp_sfp_recv_loop.eq_def, hrem]
  simp only []
  rw [if_neg, if_neg hz, if_pos (Ne.symm hw)]
  push_neg
  exact ⟨hoff, hlen, by omega⟩

/-- C7 witness input: fragA decodes to offset 0, total 10, payload length
4, and shortCap reports 5 written bytes, so the loop fails with
CSP_ERR_SFP. -/
theorem csp_sfp_recv_loop_write_short_witness :
    csp_sfp_recv_loop shortCap fragA [] 0 0 () = (CSP_ERR_SFP, 0, ()) :=
  csp_sfp_recv_loop_write_short shortCap fragA [] 0 0 () ⟨0, 10⟩ ⟨CSP_FFRAG, [1, 2, 3, 4]⟩
    (by decide) (by decide) (by decide) (by decide) (by decide) (by decide)

/-- C7 counterexample: feeding the receiver fragA (declaring total 10) and
then fragB (declaring total 999 at offset 4), the write callback receives
999 as its total size argument on the second call, not the running
expected total 10 fixed by the first fragment. -/
theorem csp_sfp_recv_fp_totalsize_argument :
    (csp_sfp_recv_fp logCap [fragA, fragB] none []).2.2 =
      [(0, 4, 10), (4, 4, 999)] ∧
    decodedTotal fragA = 10 ∧ (999 : Nat) ≠ 10 := by
  decide

/-- Helper: every value returned by the send loop has a code other than
CSP_ERR_INVAL, flags that either are unchanged or have CSP_FFRAG merged
in, flags with CSP_FFRAG merged in whenever at least one fragment was
sent, and only fragments carrying CSP_FFRAG. -/
theorem sfpSendSteps_inv (env : SendEnv) (t m : Nat) :
    ∀ (fuel flags count : Nat) (ps : List Packet) (fl : Nat) (code : Int),
      sfpSendSteps env t m flags count fuel = some (ps, fl, code) →
      code ≠ CSP_ERR_INVAL ∧ (fl = flags ∨ fl = flags ||| CSP_FFRAG) ∧
        (ps ≠ [] → fl = flags ||| CSP_FFRAG) ∧
        (∀ q ∈ ps, q.flags &&& CSP_FFRAG ≠ 0) := by
  intro fuel
  induction fuel with
  | zero => intro flags count ps fl code h; cases h
  | succ n ih =>
    intro flags count ps fl code h
    rw [sfpSendSteps] at h
    dsimp only at h
    split_ifs at h
    all_goals try (
      injection h with hh
      injection hh with hh1 hh2
      injection hh2 with hh3 hh4
      subst hh1
      subst hh3
      subst hh4
      exact ⟨by decide, Or.inl rfl, fun hne => absurd rfl hne, by simp⟩)
    all_goals split at h
    all_goals try exact Option.noConfusion h
    all_goals (
      rename_i ps2 fl2 code2 heq
      injection h with hh
      injection hh with hh1 hh2
      injection hh2 with hh3 hh4
      obtain ⟨i1, i2, i3, i4⟩ := ih _ _ ps2 fl2 code2 heq
      subst hh1
      subst hh3
      subst hh4
      have hfl : fl2 = flags ||| CSP_FFRAG := by
        rcases i2 with i2 | i2
        · exact i2
        · rw [i2, lor_ffrag_idem]
      refine ⟨i1, Or.inr hfl, fun _ => hfl, ?_⟩
      intro q hq
      rcases List.mem_cons.mp hq with hq | hq
      · subst hq
        exact lor_ffrag_land_ne_zero flags
      · exact i4 q hq)

/-- Helper: at totalsize 65536 and mtu 248 the uint16 truncation of
totalsize - count yields size 0 on the very first iteration, count never
advances, and the send loop is still running after any number of
iterations. -/
theorem sfpSendSteps_stuck_65536 :
    ∀ (fuel flags : Nat), sfpSendSteps envPerfect 65536 248 flags 0 fuel = none := by
  intro fuel
  induction fuel with
  | zero => intro flags; rfl
  | succ n ih =>
    intro flags
    have ih2 := ih (flags ||| CSP_FFRAG)
    rw [sfpSendSteps]
    simp only [envPerfect] at ih2 ⊢
    norm_num [UINT16_MOD]
    rw [ih2]

/-- C5: csp_sfp_send returns CSP_ERR_INVAL exactly when mtu is 0 or
exceeds CSP_BUFFER_SIZE - SFP_HEADER_SIZE, and in that case it returns
before allocating or sending anything, with the fragment list empty and
the connection flags untouched; inside the range the loop can never
produce CSP_ERR_INVAL, whatever the fragments do. -/
theorem csp_sfp_send_inval_iff (env : SendEnv) (flags totalsize mtu : Nat)
    (hm : mtu < UINT32_MOD) :
    ((∃ ps fl, csp_sfp_send env flags totalsize mtu = some (ps, fl, CSP_ERR_INVAL)) ↔
      (mtu = 0 ∨ CSP_BUFFER_SIZE - SFP_HEADER_SIZE < mtu)) ∧
    ((mtu = 0 ∨ CSP_BUFFER_SIZE - SFP_HEADER_SIZE < mtu) →
      csp_sfp_send env flags totalsize mtu = some ([], flags, CSP_ERR_INVAL)) := by
  unfold csp_sfp_send
  dsimp only
  rw [Nat.mod_eq_of_lt hm]
  split_ifs with hg
  · exact ⟨⟨fun _ => hg, fun _ => ⟨[], flags, rfl⟩⟩, fun _ => rfl⟩
  · refine ⟨⟨fun hex => ?_, fun hgg => absurd hgg hg⟩, fun hgg => absurd hgg hg⟩
    obtain ⟨ps, fl, hps⟩ := hex
    obtain ⟨i1, -⟩ := sfpSendSteps_inv env (totalsize % UINT32_MOD) mtu _ flags 0 ps fl CSP_ERR_INVAL hps
    exact (i1 rfl).elim

/-- C5 witness inputs: mtu 249 is one past the boundary and fails up
front with nothing sent; mtu 248 is on the boundary and can never yield
CSP_ERR_INVAL. -/
theorem csp_sfp_send_inval_iff_witness :
    csp_sfp_send envPerfect 0 10 249 = some ([], 0, CSP_ERR_INVAL) ∧
    ¬ (∃ ps fl, csp_sfp_send envPerfect 0 10 248 = some (ps, fl, CSP_ERR_INVAL)) := by
  constructor
  · exact (csp_sfp_send_inval_iff envPerfect 0 10 249 (by decide)).2 (by decide)
  · intro hex
    have h := (csp_sfp_send_inval_iff envPerfect 0 10 248 (by decide)).1.mp hex
    rcases h with h | h
    · exact absurd h (by decide)
    · exact absurd h (by decide)

/-- C9: whenever csp_sfp_send terminates having handed at least one
fragment to the channel, the connection flags are the old flags with
CSP_FFRAG merged in, and they are never cleared; every fragment handed to
the channel carries CSP_FFRAG in its id flags. -/
theorem csp_sfp_send_sets_ffrag (env : SendEnv) (flags totalsize mtu : Nat)
    (ps : List Packet) (fl : Nat) (code : Int)
    (h : csp_sfp_send env flags totalsize mtu = some (ps, fl, code)) :
    (fl = flags ∨ fl = flags ||| CSP_FFRAG) ∧
    (ps ≠ [] → fl = flags ||| CSP_FFRAG) ∧
    (∀ q ∈ ps, q.flags &&& CSP_FFRAG ≠ 0) := by
  unfold csp_sfp_send at h
  dsimp only at h
  split_ifs at h with hg
  · injection h with hh
    injection hh with hh1 hh2
    injection hh2 with hh3 hh4
    subst hh1
    subst hh3
    exact ⟨Or.inl rfl, fun hne => absurd rfl hne, by simp⟩
  · obtain ⟨-, i2, i3, i4⟩ :=
      sfpSendSteps_inv env (totalsize % UINT32_MOD) (mtu % UINT32_MOD) _ flags 0 ps fl code h
    exact ⟨i2, i3, i4⟩

/-- C9 witness input: envPerfect, totalsize 10, mtu 4 terminates with the
three fragments of sentPerfect10 and flags 0 ||| CSP_FFRAG. -/
theorem csp_sfp_send_sets_ffrag_witness :
    (0 ||| CSP_FFRAG = 0 ∨ 0 ||| CSP_FFRAG = 0 ||| CSP_FFRAG) ∧
    (sentPerfect10 ≠ [] → 0 ||| CSP_FFRAG = 0 ||| CSP_FFRAG) ∧
    (∀ q ∈ sentPerfect10, q.flags &&& CSP_FFRAG ≠ 0) :=
  csp_sfp_send_sets_ffrag envPerfect 0 10 4 sentPerfect10 (0 ||| CSP_FFRAG)
    CSP_ERR_NONE (by decide)

/-- C3 fails on the code: with every allocation succeeding and the read
callback always reporting the requested size, the send loop started at
totalsize 65536 with the valid mtu 248 never terminates. The uint16
truncating assignment size = totalsize - count yields size 0, count stays
at 0, and the loop is still running after every number of iterations, so
it never reaches count = totalsize. -/
theorem csp_sfp_send_65536_never_returns :
    (∀ fuel flags, sfpSendSteps envPerfect 65536 248 flags 0 fuel = none) ∧
    (∀ flags, csp_sfp_send envPerfect flags 65536 248 = none) := by
  refine ⟨sfpSendSteps_stuck_65536, fun flags => ?_⟩
  unfold csp_sfp_send
  dsimp only
  rw [if_neg (by decide)]
  rw [show (65536 % UINT32_MOD) = 65536 from by decide,
    show (248 % UINT32_MOD) = 248 from by decide]
  exact sfpSendSteps_stuck_65536 (65536 + 1) flags

/-- C1 fails on the code at two inputs. At total size 65536 (a legal
uint32 total) and the valid mtu 248, csp_sfp_send never returns, so the
send then receive round trip never completes: no terminating send run
exists whose fragments the receiver could turn into a success with
datasize 65536. And at total size 0 the sender correctly sends nothing,
but the receiver of the empty transfer then returns CSP_ERR_TIMEDOUT with
datasize 0 rather than the success with datasize 0 that the claim
requires. -/
theorem sfp_roundtrip_65536_fails :
    csp_sfp_send envPerfect 0 65536 248 = none ∧
    (∀ ps fl code, csp_sfp_send envPerfect 0 65536 248 = some (ps, fl, code) →
      (csp_sfp_recv_fp sinkCap ps none []).2.1 = 65536 → False) ∧
    csp_sfp_send envPerfect 0 0 248 = some ([], 0, CSP_ERR_NONE) ∧
    csp_sfp_recv_fp sinkCap [] none [] = (CSP_ERR_TIMEDOUT, 0, []) := by
  have hnone : csp_sfp_send envPerfect 0 65536 248 = none := by
    unfold csp_sfp_send
    dsimp only
    rw [if_neg (by decide)]
    rw [show (65536 % UINT32_MOD) = 65536 from by decide,
      show (248 % UINT32_MOD) = 248 from by decide]
    exact sfpSendSteps_stuck_65536 (65536 + 1) 0
  refine ⟨hnone, fun ps fl code hsome _ => ?_, by decide, by decide⟩
  rw [hnone] at hsome
  exact Option.noConfusion hsome

/-- C2 fails on the code: at total size 65536 and mtu 248 the claim
requires ceil(65536 / 248) = 265 fragments, but the send loop never
terminates (the uint16 truncation yields size 0 fragments and count never
advances), so no terminating run hands 265 fragments to the channel. -/
theorem sfp_fragment_count_65536_fails :
    (65536 + 248 - 1) / 248 = 265 ∧
    csp_sfp_send envPerfect 0 65536 248 = none ∧
    (∀ ps fl code, csp_sfp_send envPerfect 0 65536 248 = some (ps, fl, code) →
      ps.length ≠ 265) := by
  have hnone : csp_sfp_send envPerfect 0 65536 248 = none := by
    unfold csp_sfp_send
    dsimp only
    rw [if_neg (by decide)]
    rw [show (65536 % UINT32_MOD) = 65536 from by decide,
      show (248 % UINT32_MOD) = 248 from by decide]
    exact sfpSendSteps_stuck_65536 (65536 + 1) 0
  refine ⟨by norm_num, hnone, fun ps fl code hsome => ?_⟩
  rw [hnone] at hsome
  exact Option.noConfusion hsome

/-- Helper: the receive loop reports datasize 0 on every non success exit,
and on success it reports the running datasize, namely the decoded total
of the in hand packet when the running datasize was still unset; the
reported success datasize is never 0. -/
theorem csp_sfp_recv_loop_datasize {σ : Type} (wr : WriteCap σ) :
    ∀ (chan : List Packet) (pkt : Packet) (ds off : Nat) (s : σ),
      ((csp_sfp_recv_loop wr pkt chan ds off s).1 = CSP_ERR_NONE →
        (csp_sfp_recv_loop wr pkt chan ds off s).2.1 =
          (if ds = 0 then decodedTotal pkt else ds) ∧
        (csp_sfp_recv_loop wr pkt chan ds off s).2.1 ≠ 0) ∧
      ((csp_sfp_recv_loop wr pkt chan ds off s).1 ≠ CSP_ERR_NONE →
        (csp_sfp_recv_loop wr pkt chan ds off s).2.1 = 0) := by
  have hstep : ∀ (chan : List Packet) (pkt : Packet) (ds off : Nat) (s : σ),
      (∀ (q : Packet) (rest : List Packet), chan = q :: rest →
        ∀ (ds2 off2 : Nat) (s2 : σ),
          ((csp_sfp_recv_loop wr q rest ds2 off2 s2).1 = CSP_ERR_NONE →
            (csp_sfp_recv_loop wr q rest ds2 off2 s2).2.1 =
              (if ds2 = 0 then decodedTotal q else ds2) ∧
            (csp_sfp_recv_loop wr q rest ds2 off2 s2).2.1 ≠ 0) ∧
          ((csp_sfp_recv_loop wr q rest ds2 off2 s2).1 ≠ CSP_ERR_NONE →
            (csp_sfp_recv_loop wr q rest ds2 off2 s2).2.1 = 0)) →
      ((csp_sfp_recv_loop wr pkt chan ds off s).1 = CSP_ERR_NONE →
        (csp_sfp_recv_loop wr pkt chan ds off s).2.1 =
          (if ds = 0 then decodedTotal pkt else ds) ∧
        (csp_sfp_recv_loop wr pkt chan ds off s).2.1 ≠ 0) ∧
      ((csp_sfp_recv_loop wr pkt chan ds off s).1 ≠ CSP_ERR_NONE →
        (csp_sfp_recv_loop wr pkt chan ds off s).2.1 = 0) := by
    intro chan pkt ds off s hrec
    rw [csp_sfp_recv_loop.eq_def]
    rcases hrem : csp_sfp_header_remove pkt with ⟨hopt, p⟩
    rcases hopt with - | hdr
    · exact ⟨fun h => absurd h (by decide : ¬ (CSP_ERR_SFP = CSP_ERR_NONE)),
        fun _ => rfl⟩
    · dsimp only
      by_cases hbad : hdr.offset ≠ off ∨ p.data.length = 0 ∨
          CSP_BUFFER_SIZE - SFP_HEADER_SIZE < p.data.length
      · rw [if_pos hbad]
        exact ⟨fun h => absurd h (by decide : ¬ (CSP_ERR_SFP = CSP_ERR_NONE)),
          fun _ => rfl⟩
      · rw [if_neg hbad]
        by_cases hz : ds = 0 ∧ hdr.totalsize = 0
        · rw [if_pos hz]
          exact ⟨fun h => absurd h (by decide : ¬ (CSP_ERR_SFP = CSP_ERR_NONE)),
            fun _ => rfl⟩
        · rw [if_neg hz]
          by_cases hlen : p.data.length ≠ (wr.write s p.data off p.data.length hdr.totalsize).1
          · rw [if_pos hlen]
            exact ⟨fun h => absurd h (by decide : ¬ (CSP_ERR_SFP = CSP_ERR_NONE)),
              fun _ => rfl⟩
          · rw [if_neg hlen]
            have hds2 : (if ds = 0 then hdr.totalsize else ds) ≠ 0 := by
              split_ifs with h0
              · exact fun ht => hz ⟨h0, ht⟩
              · exact h0
            have hds2eq : (if ds = 0 then hdr.totalsize else ds) =
                (if ds = 0 then decodedTotal pkt else ds) := by
              split_ifs with h0
              · exact (header_remove_some pkt hdr p hrem).2.1
              · rfl
            by_cases hdone : (if ds = 0 then hdr.totalsize else ds) ≤
                (off + p.data.length) % UINT32_MOD
            · rw [if_pos hdone]
              exact ⟨fun _ => ⟨hds2eq, hds2⟩, fun h => absurd rfl h⟩
            · rw [if_neg hdone]
              have hlen0 : ¬ p.data.length = 0 := by
                push_neg at hbad
                exact hbad.2.1
              rw [if_neg hlen0]
              rcases chan with - | ⟨q, rest⟩
              · exact ⟨fun h => absurd h (by decide : ¬ (CSP_ERR_TIMEDOUT = CSP_ERR_NONE)),
                  fun _ => rfl⟩
              · have ih := hrec q rest rfl (if ds = 0 then hdr.totalsize else ds)
                  ((off + p.data.length) % UINT32_MOD)
                  (wr.write s p.data off p.data.length hdr.totalsize).2
                refine ⟨fun h => ?_, fun h => ih.2 h⟩
                obtain ⟨i1, i2⟩ := ih.1 h
                rw [if_neg hds2] at i1
                exact ⟨by rw [i1, hds2eq], i2⟩
  intro chan
  induction chan with
  | nil =>
    intro pkt ds off s
    exact hstep [] pkt ds off s (fun q rest hq => List.noConfusion hq)
  | cons q rest ih =>
    intro pkt ds off s
    refine hstep (q :: rest) pkt ds off s ?_
    intro q2 rest2 hq ds2 off2 s2
    injection hq with hq1 hq2
    subst hq1
    subst hq2
    exact ih q ds2 off2 s2

/-- C10: the datasize out parameter of csp_sfp_recv_fp is written to 0 on
entry and only overwritten on the success path, so every error return
shows datasize 0, and a success return shows the total declared by the
first fragment processed. -/
theorem csp_sfp_recv_fp_datasize {σ : Type} (wr : WriteCap σ)
    (chan : List Packet) (fp : Option Packet) (s : σ) :
    ((csp_sfp_recv_fp wr chan fp s).1 ≠ CSP_ERR_NONE →
      (csp_sfp_recv_fp wr chan fp s).2.1 = 0) ∧
    ((csp_sfp_recv_fp wr chan fp s).1 = CSP_ERR_NONE →
      ∀ p, firstPacket chan fp = some p →
        (csp_sfp_recv_fp wr chan fp s).2.1 = decodedTotal p) := by
  rcases fp with - | p0
  · rcases chan with - | ⟨q, rest⟩
    · exact ⟨fun _ => rfl,
        fun h => absurd h (by decide : ¬ (CSP_ERR_TIMEDOUT = CSP_ERR_NONE))⟩
    · have hl := csp_sfp_recv_loop_datasize wr rest q 0 0 s
      refine ⟨hl.2, fun h p hp => ?_⟩
      obtain ⟨i1, -⟩ := hl.1 h
      rw [if_pos rfl] at i1
      have hpq : p = q := by
        simp only [firstPacket, List.head?] at hp
        exact ((Option.some.injEq q p).mp hp).symm
      rw [hpq]
      exact i1
  · have hl := csp_sfp_recv_loop_datasize wr chan p0 0 0 s
    refine ⟨hl.2, fun h p hp => ?_⟩
    obtain ⟨i1, -⟩ := hl.1 h
    rw [if_pos rfl] at i1
    have hpq : p = p0 := by
      simp only [firstPacket] at hp
      exact ((Option.some.injEq p0 p).mp hp).symm
    rw [hpq]
    exact i1

/-- C10 witness inputs: an empty channel makes csp_sfp_recv_fp fail with
datasize 0, and the complete single fragment fragFull makes it succeed
with the total declared by that fragment. -/
theorem csp_sfp_recv_fp_datasize_witness :
    (csp_sfp_recv_fp unitCap [] none ()).2.1 = 0 ∧
    (csp_sfp_recv_fp unitCap [fragFull] none ()).2.1 = decodedTotal fragFull :=
  ⟨(csp_sfp_recv_fp_datasize unitCap [] none ()).1 (by decide),
   (csp_sfp_recv_fp_datasize unitCap [fragFull] none ()).2 (by decide) fragFull (by decide)⟩

/-- C8 amended witness input: a fragment flagged packet with 2 payload
bytes and an 8 byte trailer comes back from the decode with payload
length 2, shrunk by exactly the trailer size. -/
theorem csp_sfp_header_remove_length_witness :
    (csp_sfp_header_remove ⟨CSP_FFRAG, [9, 9, 0, 0, 0, 0, 0, 0, 0, 5]⟩).2.data.length +
      SFP_HEADER_SIZE = 10 :=
  (csp_sfp_header_remove_length ⟨CSP_FFRAG, [9, 9, 0, 0, 0, 0, 0, 0, 0, 5]⟩).2
    (by decide) (by decide)

/-- Helper: the big endian codec is a round trip on uint32 values. -/
theorem be32_roundtrip (x : Nat) (hx : x < UINT32_MOD) : be32dec (be32enc x) = x := by
  have hU : UINT32_MOD = 4294967296 := rfl
  unfold be32enc be32dec
  simp [List.foldl]
  omega

/-- Helper: appending the trailer and then removing it restores the packet
and yields the encoded fields, for any uint32 offset not above the uint32
total size and any packet carrying the fragment flag. -/
theorem csp_sfp_header_add_remove (fl : Nat) (payload : List Nat) (a b : Nat)
    (hfl : fl &&& CSP_FFRAG ≠ 0) (hab : a ≤ b) (hb : b < UINT32_MOD) :
    csp_sfp_header_remove (csp_sfp_header_add ⟨fl, payload⟩ a b) =
      (some ⟨a, b⟩, ⟨fl, payload⟩) := by
  have ha : a < UINT32_MOD := Nat.lt_of_le_of_lt hab hb
  have hadd : csp_sfp_header_add ⟨fl, payload⟩ a b =
      ⟨fl, payload ++ (be32enc a ++ be32enc b)⟩ := by
    simp [csp_sfp_header_add]
  rw [hadd]
  have hlen : (payload ++ (be32enc a ++ be32enc b)).length = payload.length + 8 := by
    simp [be32enc]
  have hdrop : (payload ++ (be32enc a ++ be32enc b)).drop payload.length =
      be32enc a ++ be32enc b := List.drop_left payload _
  have htake : (payload ++ (be32enc a ++ be32enc b)).take payload.length = payload :=
    List.take_left ..
  have h4 : (be32enc a).length = 4 := by simp [be32enc]
  have hoff : decodedOffset ⟨fl, payload ++ (be32enc a ++ be32enc b)⟩ = a := by
    unfold decodedOffset
    dsimp only
    rw [hlen, show payload.length + 8 - SFP_HEADER_SIZE = payload.length from rfl, hdrop]
    rw [show (4 : Nat) = (be32enc a).length from h4.symm, List.take_left ..]
    exact be32_roundtrip a ha
  have htot : decodedTotal ⟨fl, payload ++ (be32enc a ++ be32enc b)⟩ = b := by
    unfold decodedTotal
    dsimp only
    rw [hlen, show payload.length + 8 - SFP_HEADER_SIZE = payload.length from rfl, hdrop]
    rw [show (4 : Nat) = (be32enc a).length from h4.symm, List.drop_left ..]
    exact be32_roundtrip b hb
  have hS : SFP_HEADER_SIZE = 8 := rfl
  unfold csp_sfp_header_remove
  dsimp only
  rw [if_neg hfl, hlen]
  rw [if_neg (by omega), hoff, htot, if_neg (by omega)]
  rw [show payload.length + 8 - SFP_HEADER_SIZE = payload.length from rfl, htake]

/-- Helper: the read callback of envOfList fills the requested window of
the source, and the window fits the request when it lies inside the
source. -/
theorem envOfList_readData (src : List Nat) (c k : Nat) (h : c + k ≤ src.length) :
    ((envOfList src).readData c k).takeD k 0 = (src.drop c).take k := by
  have hmap : (envOfList src).readData c k =
      (List.range k).map (fun i => src.getD (c + i) 0) := rfl
  have hlen : ((envOfList src).readData c k).length = k := by
    rw [hmap]
    simp
  rw [List.takeD_eq_take 0 (by omega), hmap]
  apply List.ext_getElem
  · simp
    omega
  · intro i hi hi2
    simp only [List.length_take, List.length_map, List.length_range] at hi
    simp
    rw [List.getElem?_eq_getElem (by omega : c + i < src.length)]
    rfl

/-- Helper: one accepted fragment advances the receive loop: the trailer
decodes, the consistency checks pass, the write callback accepts, and the
loop either completes or moves on to the next packet of the channel. -/
theorem csp_sfp_recv_loop_accept {σ : Type} (wr : WriteCap σ) (pkt : Packet)
    (chan : List Packet) (ds off : Nat) (s : σ) (hdr : SfpHeader) (p : Packet)
    (hrem : csp_sfp_header_remove pkt = (some hdr, p))
    (hoff : hdr.offset = off)
    (hlen : p.data.length ≠ 0)
    (hcap : p.data.length ≤ CSP_BUFFER_SIZE - SFP_HEADER_SIZE)
    (hz : ¬ (ds = 0 ∧ hdr.totalsize = 0))
    (hw : (wr.write s p.data off p.data.length hdr.totalsize).1 = p.data.length) :
    csp_sfp_recv_loop wr pkt chan ds off s =
      (if (if ds = 0 then hdr.totalsize else ds) ≤ (off + p.data.length) % UINT32_MOD
       then (CSP_ERR_NONE, (if ds = 0 then hdr.totalsize else ds),
         (wr.write s p.data off p.data.length hdr.totalsize).2)
       else
         match chan with
         | [] => (CSP_ERR_TIMEDOUT, 0, (wr.write s p.data off p.data.length hdr.totalsize).2)
         | q :: rest =>
           csp_sfp_recv_loop wr q rest (if ds = 0 then hdr.totalsize else ds)
             ((off + p.data.length) % UINT32_MOD)
             (wr.write s p.data off p.data.length hdr.totalsize).2) := by
  rw [csp_sfp_recv_loop.eq_def, hrem]
  dsimp only
  rw [if_neg (by push_neg; exact ⟨hoff, hlen, hcap⟩), if_neg hz,
    if_neg (fun hne => hne hw.symm), if_neg hlen]

/-- Helper: for a source shorter than 65536 bytes the send loop and the
receive loop compose exactly: started at any reached count, the remaining
send iterations produce a nonempty fragment list that the receive loop
folds back into the remaining source bytes, returning CSP_ERR_NONE and the
total size. -/
theorem sfp_roundtrip_loop (src : List Nat) (mtu : Nat) (h1 : 0 < mtu)
    (h2 : mtu ≤ CSP_BUFFER_SIZE - SFP_HEADER_SIZE) (ht : src.length < UINT16_MOD) :
    ∀ (fuel count flags ds : Nat),
      count < src.length → src.length - count < fuel →
      (ds = 0 ∨ ds = src.length) →
      ∃ (hd : Packet) (tl : List Packet) (fl : Nat),
        sfpSendSteps (envOfList src) src.length mtu flags count fuel =
          some (hd :: tl, fl, CSP_ERR_NONE) ∧
        ∀ (pfx : List Nat),
          csp_sfp_recv_loop sinkCap hd tl ds count pfx =
            (CSP_ERR_NONE, src.length, pfx ++ src.drop count) := by
  have hcb : CSP_BUFFER_SIZE - SFP_HEADER_SIZE = 248 := rfl
  have hU16 : UINT16_MOD = 65536 := rfl
  have hU32 : UINT32_MOD = 4294967296 := rfl
  intro fuel
  induction fuel with
  | zero => intro count flags ds hc hf hds; omega
  | succ n ih =>
    intro count flags ds hc hf hds
    have hsize0 : (src.length - count) % UINT16_MOD = src.length - count :=
      Nat.mod_eq_of_lt (by omega)
    have hm16 : mtu % UINT16_MOD = mtu := Nat.mod_eq_of_lt (by omega)
    have halloc : (envOfList src).alloc count = true := rfl
    have hds2 : ∀ x : Nat, (if ds = 0 then src.length else ds) = src.length := by
      intro x
      rcases hds with h | h
      · rw [if_pos h]
      · rcases Nat.eq_zero_or_pos ds with h0 | h0
        · rw [if_pos h0]
        · rw [if_neg (by omega), h]
    have hzarg : ¬ (ds = 0 ∧ (⟨count, src.length⟩ : SfpHeader).totalsize = 0) := by
      rintro ⟨-, h0⟩
      dsimp at h0
      omega
    by_cases hm : mtu < src.length - count
    · -- a full fragment of mtu bytes, more to follow
      have hpay : List.takeD mtu ((envOfList src).readData count mtu) 0 =
          (src.drop count).take mtu := envOfList_readData src count mtu (by omega)
      have hplen : ((src.drop count).take mtu).length = mtu := by
        simp [List.length_take]
        omega
      obtain ⟨hd2, tl2, fl2, hsend2, hrecv2⟩ :=
        ih (count + mtu) (flags ||| CSP_FFRAG) src.length (by omega) (by omega) (Or.inr rfl)
      refine ⟨csp_sfp_header_add ⟨flags ||| CSP_FFRAG, (src.drop count).take mtu⟩
          count src.length, hd2 :: tl2, fl2, ?_, ?_⟩
      · rw [sfpSendSteps]
        dsimp only
        rw [hsize0, hm16, if_pos hm, if_pos hc, halloc, if_pos (rfl : (true : Bool) = true)]
        rw [show (envOfList src).readRet count mtu = mtu from rfl,
          if_pos (rfl : mtu = mtu), hpay, hsend2]
      · intro pfx
        have hrem := csp_sfp_header_add_remove (flags ||| CSP_FFRAG)
          ((src.drop count).take mtu) count src.length
          (lor_ffrag_land_ne_zero flags) (by omega) (by omega)
        have hlen2 : ((⟨flags ||| CSP_FFRAG, (src.drop count).take mtu⟩ : Packet)).data.length = mtu := hplen
        rw [csp_sfp_recv_loop_accept sinkCap _ _ ds count pfx ⟨count, src.length⟩
          ⟨flags ||| CSP_FFRAG, (src.drop count).take mtu⟩ hrem rfl
          (by rw [hlen2]; omega) (by rw [hlen2]; omega) hzarg rfl]
        dsimp only [sinkCap]
        rw [hlen2, hds2 0]
        rw [show (count + mtu) % UINT32_MOD = count + mtu from Nat.mod_eq_of_lt (by omega)]
        rw [if_neg (by omega)]
        have hrecv3 := hrecv2 (pfx ++ (src.drop count).take mtu)
        dsimp only [sinkCap] at hrecv3
        rw [hrecv3]
        have hglue : (src.drop count).take mtu ++ src.drop (count + mtu) = src.drop count := by
          rw [show src.drop (count + mtu) = (src.drop count).drop mtu from by
            rw [List.drop_drop, Nat.add_comm]]
          exact List.take_append_drop mtu (src.drop count)
        rw [List.append_assoc, hglue]
    · -- the final fragment of the remaining src.length - count bytes
      have hpay : List.takeD (src.length - count)
          ((envOfList src).readData count (src.length - count)) 0 =
          (src.drop count).take (src.length - count) :=
        envOfList_readData src count (src.length - count) (by omega)
      have hdlen : (src.drop count).length = src.length - count := by simp
      have htake_all : (src.drop count).take (src.length - count) = src.drop count := by
        rw [← hdlen]
        exact List.take_length (src.drop count)
      have hplen : (src.drop count).length = src.length - count := hdlen
      have htail : sfpSendSteps (envOfList src) src.length mtu (flags ||| CSP_FFRAG)
          (count + (src.length - count)) n = some ([], flags ||| CSP_FFRAG, CSP_ERR_NONE) := by
        rcases n with - | n2
        · omega
        · rw [sfpSendSteps, if_neg (by omega)]
      refine ⟨csp_sfp_header_add ⟨flags ||| CSP_FFRAG, src.drop count⟩ count src.length,
        [], flags ||| CSP_FFRAG, ?_, ?_⟩
      · rw [sfpSendSteps]
        dsimp only
        rw [hsize0, hm16, if_neg hm, if_pos hc, halloc, if_pos (rfl : (true : Bool) = true)]
        rw [show (envOfList src).readRet count (src.length - count) = src.length - count from rfl,
          if_pos (rfl : src.length - count = src.length - count), hpay, htake_all, htail]
      · intro pfx
        have hrem := csp_sfp_header_add_remove (flags ||| CSP_FFRAG)
          (src.drop count) count src.length
          (lor_ffrag_land_ne_zero flags) (by omega) (by omega)
        have hlen2 : ((⟨flags ||| CSP_FFRAG, src.drop count⟩ : Packet)).data.length =
          src.length - count := hplen
        rw [csp_sfp_recv_loop_accept sinkCap _ _ ds count pfx ⟨count, src.length⟩
          ⟨flags ||| CSP_FFRAG, src.drop count⟩ hrem rfl
          (by rw [hlen2]; omega) (by rw [hlen2]; omega) hzarg rfl]
        dsimp only [sinkCap]
        rw [hlen2, hds2 0]
        rw [show (count + (src.length - count)) % UINT32_MOD = count + (src.length - count) from
          Nat.mod_eq_of_lt (by omega)]
        rw [if_pos (by omega)]

/-- Helper: for a nonempty source shorter than 65536 bytes and a valid
mtu, csp_sfp_send terminates successfully and csp_sfp_recv_fp run on the
sent fragments rebuilds exactly the source bytes and returns the total
size. The round trip of the spec therefore holds on this whole domain,
and the uint16 truncation hit at 65536 is the only obstruction. -/
theorem sfp_roundtrip_small (src : List Nat) (mtu : Nat) (h1 : 0 < mtu)
    (h2 : mtu ≤ CSP_BUFFER_SIZE - SFP_HEADER_SIZE) (hne : src ≠ [])
    (ht : src.length < UINT16_MOD) :
    ∃ (ps : List Packet) (fl : Nat),
      csp_sfp_send (envOfList src) 0 src.length mtu = some (ps, fl, CSP_ERR_NONE) ∧
      csp_sfp_recv_fp sinkCap ps none [] = (CSP_ERR_NONE, src.length, src) := by
  have hcb : CSP_BUFFER_SIZE - SFP_HEADER_SIZE = 248 := rfl
  have hU16 : UINT16_MOD = 65536 := rfl
  have hU32 : UINT32_MOD = 4294967296 := rfl
  have hc0 : 0 < src.length := List.length_pos.mpr hne
  obtain ⟨hd, tl, fl, hsend, hrecv⟩ :=
    sfp_roundtrip_loop src mtu h1 h2 ht (src.length + 1) 0 0 0 hc0 (by omega) (Or.inl rfl)
  refine ⟨hd :: tl, fl, ?_, ?_⟩
  · unfold csp_sfp_send
    dsimp only
    rw [Nat.mod_eq_of_lt (show src.length < UINT32_MOD by omega),
      Nat.mod_eq_of_lt (show mtu < UINT32_MOD by omega)]
    rw [if_neg (by push_neg; constructor <;> omega)]
    exact hsend
  · show csp_sfp_recv_loop sinkCap hd tl 0 0 [] = _
    rw [hrecv []]
    simp

/-- Helper: for a total below 65536, an always succeeding environment and
any mtu below 65536, the send loop terminates with CSP_ERR_NONE and hands
over exactly ceil((t - count) / mtu) fragments; the fragment at position i
carries the trailer offset count + i * mtu and total size t, its payload
is mtu bytes except for the last fragment, which carries the remaining
tail. -/
theorem sfpSendSteps_fragments (env : SendEnv) (t mtu : Nat)
    (halloc : ∀ c, env.alloc c = true)
    (hret : ∀ c k, env.readRet c k = k)
    (h1 : 0 < mtu) (hmu : mtu < UINT16_MOD) (ht : t < UINT16_MOD) :
    ∀ (fuel count flags : Nat), count ≤ t → t - count < fuel →
      ∃ (ps : List Packet) (fl : Nat),
        sfpSendSteps env t mtu flags count fuel = some (ps, fl, CSP_ERR_NONE) ∧
        ps.length = (t - count + mtu - 1) / mtu ∧
        ∀ (i : Nat) (hi : i < ps.length),
          decodedOffset (ps.get ⟨i, hi⟩) = count + i * mtu ∧
          decodedTotal (ps.get ⟨i, hi⟩) = t ∧
          (ps.get ⟨i, hi⟩).data.length =
            (if i + 1 < ps.length then mtu else t - (count + i * mtu)) + SFP_HEADER_SIZE := by
  have hU16 : UINT16_MOD = 65536 := rfl
  have hU32 : UINT32_MOD = 4294967296 := rfl
  have hS : SFP_HEADER_SIZE = 8 := rfl
  intro fuel
  induction fuel with
  | zero => intro count flags hc hf; omega
  | succ n ih =>
    intro count flags hc hf
    by_cases hct : count < t
    · have hsz0 : (t - count) % UINT16_MOD = t - count := Nat.mod_eq_of_lt (by omega)
      have hm16 : mtu % UINT16_MOD = mtu := Nat.mod_eq_of_lt (by omega)
      by_cases hm : mtu < t - count
      · -- a full fragment, more to follow
        have hplen : ((env.readData count mtu).takeD mtu 0).length = mtu :=
          List.takeD_length mtu _ _
        have hrem := csp_sfp_header_add_remove (flags ||| CSP_FFRAG)
          ((env.readData count mtu).takeD mtu 0) count t
          (lor_ffrag_land_ne_zero flags) (by omega) (by omega)
        obtain ⟨hoffE, htotE, -, -⟩ := header_remove_some _ _ _ hrem
        dsimp only at hoffE htotE
        obtain ⟨ps2, fl2, hsend2, hlen2, hidx2⟩ :=
          ih (count + mtu) (flags ||| CSP_FFRAG) (by omega) (by omega)
        refine ⟨csp_sfp_header_add
            ⟨flags ||| CSP_FFRAG, (env.readData count mtu).takeD mtu 0⟩ count t :: ps2,
          fl2, ?_, ?_, ?_⟩
        · rw [sfpSendSteps]
          dsimp only
          rw [hsz0, hm16, if_pos hm, if_pos hct, halloc count,
            if_pos (rfl : (true : Bool) = true), hret count mtu,
            if_pos (rfl : mtu = mtu), hsend2]
        · rw [List.length_cons, hlen2]
          rw [show t - count + mtu - 1 = (t - (count + mtu) + mtu - 1) + 1 * mtu from by omega,
            Nat.add_mul_div_right _ _ h1]
        · intro i hi
          rcases i with - | j
          · refine ⟨by dsimp only [List.get]; omega, by dsimp only [List.get]; omega, ?_⟩
            have hgl : ((csp_sfp_header_add
                ⟨flags ||| CSP_FFRAG, (env.readData count mtu).takeD mtu 0⟩ count t ::
                  ps2).get ⟨0, hi⟩).data.length = mtu + 8 := by
              dsimp only [List.get]
              simp [csp_sfp_header_add, be32enc, hplen]
            rw [hgl]
            have hlpos : 0 < ps2.length := by
              rw [hlen2]
              have : mtu ≤ t - (count + mtu) + mtu - 1 := by omega
              have := Nat.div_le_div_right (c := mtu) this
              rw [Nat.div_self h1] at this
              omega
            rw [if_pos (by simp [List.length_cons]; omega)]
            rfl
          · have hj : j < ps2.length := by
              have := hi
              rw [List.length_cons] at this
              omega
            obtain ⟨i1, i2, i3⟩ := hidx2 j hj
            have hget : ((csp_sfp_header_add
                ⟨flags ||| CSP_FFRAG, (env.readData count mtu).takeD mtu 0⟩ count t ::
                  ps2).get ⟨j + 1, hi⟩) = ps2.get ⟨j, hj⟩ := rfl
            rw [hget]
            refine ⟨?_, i2, ?_⟩
            · rw [i1, Nat.succ_mul]
              omega
            · rw [i3]
              have hiff : (j + 1 < ps2.length) ↔
                  (j + 1 + 1 < (csp_sfp_header_add
                    ⟨flags ||| CSP_FFRAG, (env.readData count mtu).takeD mtu 0⟩ count t ::
                      ps2).length) := by
                rw [List.length_cons]
                omega
              have harith : t - (count + mtu + j * mtu) = t - (count + (j + 1) * mtu) := by
                rw [Nat.succ_mul]
                omega
              by_cases hcase : j + 1 < ps2.length
              · rw [if_pos hcase, if_pos (hiff.mp hcase)]
              · rw [if_neg hcase, if_neg (fun hx => hcase (hiff.mpr hx)), harith]
      · -- the final fragment
        have hplen : ((env.readData count (t - count)).takeD (t - count) 0).length = t - count :=
          List.takeD_length _ _ _
        have hrem := csp_sfp_header_add_remove (flags ||| CSP_FFRAG)
          ((env.readData count (t - count)).takeD (t - count) 0) count t
          (lor_ffrag_land_ne_zero flags) (by omega) (by omega)
        obtain ⟨hoffE, htotE, -, -⟩ := header_remove_some _ _ _ hrem
        dsimp only at hoffE htotE
        have htail : sfpSendSteps env t mtu (flags ||| CSP_FFRAG)
            (count + (t - count)) n = some ([], flags ||| CSP_FFRAG, CSP_ERR_NONE) := by
          rcases n with - | n2
          · omega
          · rw [sfpSendSteps, if_neg (by omega)]
        refine ⟨[csp_sfp_header_add
            ⟨flags ||| CSP_FFRAG, (env.readData count (t - count)).takeD (t - count) 0⟩
            count t], flags ||| CSP_FFRAG, ?_, ?_, ?_⟩
        · rw [sfpSendSteps]
          dsimp only
          rw [hsz0, hm16, if_neg hm, if_pos hct, halloc count,
            if_pos (rfl : (true : Bool) = true), hret count (t - count),
            if_pos (rfl : t - count = t - count), htail]
        · rw [show t - count + mtu - 1 = (t - count - 1) + 1 * mtu from by omega,
            Nat.add_mul_div_right _ _ h1, Nat.div_eq_of_lt (by omega)]
          simp
        · intro i hi
          have hi0 : i = 0 := by
            simp at hi
            omega
          subst hi0
          refine ⟨by dsimp only [List.get]; omega, by dsimp only [List.get]; omega, ?_⟩
          have hgl : (([csp_sfp_header_add
              ⟨flags ||| CSP_FFRAG, (env.readData count (t - count)).takeD (t - count) 0⟩
              count t]).get ⟨0, hi⟩).data.length = (t - count) + 8 := by
            dsimp only [List.get]
            simp [csp_sfp_header_add, be32enc, hplen]
          rw [hgl, if_neg (by simp)]
          omega
    · have hceq : count = t := by omega
      refine ⟨[], flags, ?_, ?_, ?_⟩
      · rw [sfpSendSteps, if_neg (by omega)]
      · rw [show t - count + mtu - 1 = mtu - 1 from by omega]
        simp [Nat.div_eq_of_lt (show mtu - 1 < mtu by omega)]
      · intro i hi
        simp at hi
